import Mathlib

/-!
Shallow embedding of the concurrent conversion-job core of `src/app.py`
(an image → WebP batch converter).

Modelling conventions:
* Python floats (`time.monotonic` differences, the float divisions in the
  progress / ETA computations) are modelled as exact rationals (`ℚ`);
  `int(...)` on a nonnegative float and `time.gmtime`'s truncation of
  fractional seconds are modelled as `Nat.floor`.
* OS / codec calls are modelled as oracles supplied to the embedded
  function: `os.remove` as a map from attempt index to outcome,
  `os.path.exists` as a `String → Bool` oracle, the fallible steps of a
  task body as an environment record of `Except` values.
* Qt signal emissions are modelled as values of an `Event` type collected
  in a list, in emission order.
* The mutable `JobController` object is modelled by explicit state
  passing; concurrent reads of the `cancelled` flag during the `start`
  loop are modelled by an oracle giving the value observed at each
  iteration.  An interleaving of task completions is a list of completion
  events folded over the controller state, each `task_finished` call
  applied as one state update.
-/

namespace WebpApp

/-! ### `safe_remove` (src/app.py lines 17-24)

```python
def safe_remove(path, retries=3):
    for _ in range(retries):
        try:
            os.remove(path)
            return
        except PermissionError:
            time.sleep(0.1)
    os.remove(path)
```

`os.remove` is modelled as an oracle from the attempt index (0-based, in
call order) to an optional error: `none` means the deletion succeeded.
Only `PermissionError` is caught by the `except` clause; any other error
propagates from the attempt that raised it.  The returned trace records
every `os.remove` call and every `time.sleep(0.1)` in order, and the
second component is the exception (if any) escaping `safe_remove`. -/

inductive OsError where
  | permissionError
  | otherError (msg : String)
deriving DecidableEq, Repr

inductive RemoveEvent where
  | attempt
  | sleep
deriving DecidableEq, Repr

def safe_remove_go (osRemove : ℕ → Option OsError) : ℕ → ℕ → List RemoveEvent × Option OsError
  | k, 0 => ([RemoveEvent.attempt], osRemove k)
  | k, n + 1 =>
    match osRemove k with
    | none => ([RemoveEvent.attempt], none)
    | some OsError.permissionError =>
      let r := safe_remove_go osRemove (k + 1) n
      (RemoveEvent.attempt :: RemoveEvent.sleep :: r.1, r.2)
    | some (OsError.otherError m) => ([RemoveEvent.attempt], some (OsError.otherError m))

/-- `safe_remove` with an explicit retry budget (the Python default is `retries=3`). -/
def safe_remove (osRemove : ℕ → Option OsError) (retries : ℕ) : List RemoveEvent × Option OsError :=
  safe_remove_go osRemove 0 retries

/-! ### Job-level events (the four `pyqtSignal`s of `JobController`, lines 83-86) -/

inductive Event where
  | progress (percent : ℕ)
  | eta (formatted : String)
  | finished (converted : ℕ) (saved_bytes : ℤ)
  | error (msg : String)
deriving DecidableEq, Repr

def Event.isFinished : Event → Bool
  | Event.finished _ _ => true
  | _ => false

/-! ### ETA formatting (line 180: `time.strftime("%H:%M:%S", time.gmtime(eta))`) -/

def pad2 (n : ℕ) : String :=
  if n < 10 then "0" ++ toString n else toString n

/-- `%H:%M:%S` of `time.gmtime n` for a nonnegative whole number of seconds
(`%H` is the hour-of-day field, hence the `% 24`). -/
def format_hms (n : ℕ) : String :=
  pad2 (n / 3600 % 24) ++ ":" ++ pad2 (n % 3600 / 60) ++ ":" ++ pad2 (n % 60)

/-- Truncation of a nonnegative rational to a natural number, as Python's
`int(...)` / `time.gmtime`'s dropping of fractional seconds: the floor,
written executably (`q.num / q.den` is Euclidean division by the positive
denominator, i.e. the floor of `q`). -/
def ratFloor (q : ℚ) : ℕ :=
  (q.num / (q.den : ℤ)).toNat

/-- Lines 176-178:

```python
rate = self.completed / elapsed if elapsed else 0
remaining = self.total - self.completed
eta = remaining / rate if rate else 0
```

Python truthiness `if elapsed` / `if rate` is `≠ 0`. -/
def etaSeconds (total completed : ℕ) (elapsed : ℚ) : ℚ :=
  let rate : ℚ := if elapsed ≠ 0 then (completed : ℚ) / elapsed else 0
  let remaining : ℚ := (total : ℚ) - (completed : ℚ)
  if rate ≠ 0 then remaining / rate else 0

/-! ### `JobController` (lines 82-189) -/

/-- The fields set by `JobController.__init__` (lines 88-110), configuration and
mutable aggregate state together, minus the Qt plumbing (`pool`, `pause_cond`)
and the wall clock (`start_time` is modelled by passing the elapsed time to
`task_finished` directly).  Byte counters are integers (Python ints). -/
structure JobController where
  files : List String
  output_dir : String
  quality : ℕ
  keep_metadata : Bool
  delete_originals : Bool
  max_workers : ℕ
  total : ℕ
  completed : ℕ
  orig_bytes : ℤ
  webp_bytes : ℤ
  cancelled : Bool
  paused : Bool
deriving DecidableEq, Repr

/-- `JobController.__init__`: performs no validation and cannot fail. -/
def JobController.init (files : List String) (output_dir : String) (quality : ℕ)
    (keep_metadata delete_originals : Bool) (max_workers : ℕ) : JobController :=
  { files := files
    output_dir := output_dir
    quality := quality
    keep_metadata := keep_metadata
    delete_originals := delete_originals
    max_workers := max_workers
    total := files.length
    completed := 0
    orig_bytes := 0
    webp_bytes := 0
    cancelled := false
    paused := false }

/-- Modelled from the spec: the `ConfigError` of §7, "invalid job
configuration (e.g., zero workers, empty input set)".  No such error type or
check exists anywhere in the source. -/
inductive ConfigError where
  | invalidConfig
deriving DecidableEq, Repr

/-- Modelled from the spec: a constructor that surfaces `ConfigError` for an
invalid configuration (zero workers or empty input set) so that "the job
never begins".  Exists only to be compared with the unvalidated
`JobController.init` of the source. -/
def JobController.init_checked (files : List String) (output_dir : String) (quality : ℕ)
    (keep_metadata delete_originals : Bool) (max_workers : ℕ) :
    Except ConfigError JobController :=
  if max_workers = 0 ∨ files = [] then Except.error ConfigError.invalidConfig
  else Except.ok (JobController.init files output_dir quality keep_metadata
    delete_originals max_workers)

/-- Loop body of `start` (lines 112-116): `cancelledAt k` is the value of
`self.cancelled` observed by the `if self.cancelled: break` test on the
iteration handling the `k`-th file.  Returns the list of input paths for
which a `ConvertTask` was submitted to the pool, in submission order. -/
def JobController.start_go (cancelledAt : ℕ → Bool) : List String → ℕ → List String
  | [], _ => []
  | f :: fs, k =>
    if cancelledAt k then [] else f :: JobController.start_go cancelledAt fs (k + 1)

def JobController.start (c : JobController) (cancelledAt : ℕ → Bool) : List String :=
  JobController.start_go cancelledAt c.files 0

/-- Modelled from the spec: `start` with the cancelled flag "checked once
before dispatch, not per item" — a single check before the loop, submitting
every file if it is false.  (The source checks inside the loop instead;
this definition exists only to be compared with `JobController.start`.) -/
def JobController.start_once (c : JobController) (cancelledAt : ℕ → Bool) : List String :=
  if cancelledAt 0 then [] else c.files

/-! ### `resolve_name` (lines 130-136)

```python
def resolve_name(self, base):
    path = os.path.join(self.output_dir, f"{base}.webp")
    i = 1
    while os.path.exists(path):
        path = os.path.join(self.output_dir, f"{base}_{i}.webp")
        i += 1
    return path
```

`os.path.exists` is an oracle `ex : String → Bool`; `os.path.join` on a
POSIX directory without trailing slash is `dir ++ "/" ++ name`.  The
`while` loop is given explicit fuel; theorems assume enough fuel for the
loop to terminate on its own. -/

/-- The `i`-th candidate path: `base.webp` for `i = 0`, `base_i.webp` after. -/
def candidate (dir base : String) (i : ℕ) : String :=
  if i = 0 then dir ++ "/" ++ (base ++ ".webp")
  else dir ++ "/" ++ (base ++ "_" ++ toString i ++ ".webp")

def resolve_name_go (ex : String → Bool) (dir base : String) :
    String → ℕ → ℕ → String
  | path, _, 0 => path
  | path, i, fuel + 1 =>
    if ex path then resolve_name_go ex dir base (candidate dir base i) (i + 1) fuel
    else path

def JobController.resolve_name (ex : String → Bool) (dir base : String) (fuel : ℕ) : String :=
  resolve_name_go ex dir base (candidate dir base 0) 1 fuel

/-! ### `task_finished` / `task_error` (lines 167-189) -/

/-- Lines 167-186, as one state update plus the list of emitted events in
emission order.  `elapsed` is `time.monotonic() - self.start_time` at this
call; float arithmetic is exact rational arithmetic, `int(...)` and
`time.gmtime`'s truncation are `Nat.floor`. -/
def JobController.task_finished (c : JobController) (orig webp : ℤ) (elapsed : ℚ) :
    JobController × List Event :=
  let c' := { c with
    completed := c.completed + 1
    orig_bytes := c.orig_bytes + orig
    webp_bytes := c.webp_bytes + webp }
  let percent : ℕ := ratFloor (((c'.completed : ℚ) / (c'.total : ℚ)) * 100)
  let etaStr : String := format_hms (ratFloor (etaSeconds c'.total c'.completed elapsed))
  (c',
    [Event.progress percent, Event.eta etaStr] ++
      (if c'.completed = c'.total then
        [Event.finished c'.completed (c'.orig_bytes - c'.webp_bytes)]
      else []))

/-- Lines 188-189: `task_error` only emits the error signal; the counters are
untouched. -/
def JobController.task_error (c : JobController) (msg : String) : JobController × List Event :=
  (c, [Event.error msg])

/-! ### `ConvertTask.run` (lines 29-76)

The fallible external calls of the `try:` block are an environment record;
each field is the outcome the corresponding call would have (`Except.error`
carries the `str(e)` of the exception it raises):

* `origSize`  — `os.path.getsize(self.img_path)` (line 51)
* `decode`    — `Image.open(...)` + `img.load()` (lines 53-54)
* `save`      — `ctrl.save_with_metadata(...)` or `img.save(...)` (lines 59-62),
  including the `ValueError("Workflow requires PNG")` branch of
  `save_with_metadata`
* `outSize`   — `os.path.getsize(output_path)` (line 66); an `ℤ` so that the
  `if webp_size <= 0` guard of line 67 is expressible as in the source
* `remove`    — the overall outcome of `safe_remove(self.img_path)` (line 71)
-/

structure TaskEnv where
  origSize : Except String ℤ
  decode : Except String Unit
  save : Except String Unit
  outSize : Except String ℤ
  remove : Except String Unit

/-- The `try:` body, lines 50-73 up to (but not including) the
`ctrl.task_finished` call: either the `(orig_size, webp_size)` pair passed to
`task_finished`, or the message of the exception reaching the `except` clause. -/
def ConvertTask.body (delete_originals : Bool) (env : TaskEnv) : Except String (ℤ × ℤ) := do
  let orig ← env.origSize
  let _ ← env.decode
  let _ ← env.save
  let webp ← env.outSize
  if webp ≤ 0 then throw "Empty WEBP"
  if delete_originals then
    let _ ← env.remove
  return (orig, webp)

inductive TaskOutcome where
  | aborted
  | completed (orig webp : ℤ)
  | failed (msg : String)
deriving DecidableEq, Repr

/-- The observable steps of one `ConvertTask.run`, in program order:
`pauseWait` is the `with ctrl.pause_cond: while ctrl.paused: wait()` block
(lines 40-42), `cancelCheck` the `if ctrl.cancelled` test (line 45), and
`convertWork` entry into the `try:` conversion body (line 50). -/
inductive RunStep where
  | pauseWait
  | cancelCheck
  | convertWork
deriving DecidableEq, Repr

/-- `ConvertTask.run` (lines 36-76).  `cancelled` is the value of
`ctrl.cancelled` read at line 45, i.e. after the pause wait has returned.
Returns the executed steps in order and the task's outcome; an aborted task
returns from line 46 and never enters the conversion body. -/
def ConvertTask.run (cancelled : Bool) (fname : String) (delete_originals : Bool)
    (env : TaskEnv) : List RunStep × TaskOutcome :=
  if cancelled then ([RunStep.pauseWait, RunStep.cancelCheck], TaskOutcome.aborted)
  else
    match ConvertTask.body delete_originals env with
    | Except.ok (orig, webp) =>
      ([RunStep.pauseWait, RunStep.cancelCheck, RunStep.convertWork],
        TaskOutcome.completed orig webp)
    | Except.error e =>
      ([RunStep.pauseWait, RunStep.cancelCheck, RunStep.convertWork],
        TaskOutcome.failed (fname ++ " → " ++ e))

/-- One task's effect on the controller: `task_finished` on completion
(line 73), `task_error` on failure (line 76), nothing when aborted
(line 46: plain `return`). -/
def ConvertTask.runJob (c : JobController) (fname : String) (env : TaskEnv)
    (elapsed : ℚ) : JobController × List Event :=
  match (ConvertTask.run c.cancelled fname c.delete_originals env).2 with
  | TaskOutcome.aborted => (c, [])
  | TaskOutcome.completed orig webp => JobController.task_finished c orig webp elapsed
  | TaskOutcome.failed msg => JobController.task_error c msg

/-! ### Interleavings of task completions

A completion event is the `(orig_size, webp_size)` pair a task reports
together with the elapsed time observed inside its `task_finished` call; an
interleaving of the completions of a job is the list of such events in the
order the (serialized, see §5 of the spec) `task_finished` updates are
applied.  Each dispatched task calls `task_finished` at most once, so a job
over `n` files yields at most `n` events. -/

abbrev Completion := ℤ × ℤ × ℚ

/-- Fold the controller state over a list of completion events. -/
def runCompletions (c : JobController) : List Completion → JobController
  | [] => c
  | e :: es => runCompletions (JobController.task_finished c e.1 e.2.1 e.2.2).1 es

/-- State after the first `k` completions of a schedule. -/
def runPrefix (c : JobController) (sch : List Completion) (k : ℕ) : JobController :=
  runCompletions c (sch.take k)

/-- The per-step event lists of a completion schedule: entry `k` holds the
events emitted by the `k`-th `task_finished` call. -/
def jobEvents (c : JobController) : List Completion → List (List Event)
  | [] => []
  | e :: es =>
    (JobController.task_finished c e.1 e.2.1 e.2.2).2 ::
      jobEvents (JobController.task_finished c e.1 e.2.1 e.2.2).1 es

/-- `ratFloor` is the natural-number floor. -/
theorem ratFloor_eq_natFloor (q : ℚ) : ratFloor q = ⌊q⌋₊ := by
  rw [ratFloor, ← Rat.floor_def, Int.floor_toNat]

/-! ### Lemmas about completion schedules -/

@[simp]
theorem task_finished_fst (c : JobController) (o w : ℤ) (el : ℚ) :
    (JobController.task_finished c o w el).1 =
      { c with
        completed := c.completed + 1
        orig_bytes := c.orig_bytes + o
        webp_bytes := c.webp_bytes + w } := rfl

@[simp]
theorem runCompletions_nil (c : JobController) : runCompletions c [] = c := rfl

@[simp]
theorem runCompletions_cons (c : JobController) (e : Completion) (es : List Completion) :
    runCompletions c (e :: es) =
      runCompletions (JobController.task_finished c e.1 e.2.1 e.2.2).1 es := rfl

theorem runCompletions_append (c : JobController) (a b : List Completion) :
    runCompletions c (a ++ b) = runCompletions (runCompletions c a) b := by
  induction a generalizing c with
  | nil => simp
  | cons e es ih => simp [ih]

@[simp]
theorem runCompletions_total (c : JobController) (es : List Completion) :
    (runCompletions c es).total = c.total := by
  induction es generalizing c with
  | nil => rfl
  | cons e es ih => simp [ih]

@[simp]
theorem runCompletions_completed (c : JobController) (es : List Completion) :
    (runCompletions c es).completed = c.completed + es.length := by
  induction es generalizing c with
  | nil => rfl
  | cons e es ih => simp [ih]; omega

@[simp]
theorem runCompletions_orig_bytes (c : JobController) (es : List Completion) :
    (runCompletions c es).orig_bytes = c.orig_bytes + (es.map fun e => e.1).sum := by
  induction es generalizing c with
  | nil => simp
  | cons e es ih => simp [ih]; ring

@[simp]
theorem runCompletions_webp_bytes (c : JobController) (es : List Completion) :
    (runCompletions c es).webp_bytes = c.webp_bytes + (es.map fun e => e.2.1).sum := by
  induction es generalizing c with
  | nil => simp
  | cons e es ih => simp [ih]; ring

theorem jobEvents_get? (es : List Completion) (c : JobController) (k : ℕ) :
    (jobEvents c es).get? k =
      (es.get? k).map
        (fun e => (JobController.task_finished (runPrefix c es k) e.1 e.2.1 e.2.2).2) := by
  induction es generalizing c k with
  | nil => simp [jobEvents]
  | cons e es ih =>
    cases k with
    | zero => simp [jobEvents, runPrefix]
    | succ k => simpa [jobEvents, runPrefix] using ih _ k

/-- The `finished` signal is part of the events of one `task_finished` call
exactly when that call raises `completed` to `total`. -/
theorem finished_mem_task_finished (c : JobController) (o w : ℤ) (el : ℚ) :
    (∃ n b, Event.finished n b ∈ (JobController.task_finished c o w el).2) ↔
      c.completed + 1 = c.total := by
  by_cases h : c.completed + 1 = c.total <;>
    simp [JobController.task_finished, h]

/-- Payload of the `finished` signal when it fires. -/
theorem finished_payload_task_finished (c : JobController) (o w : ℤ) (el : ℚ)
    (h : c.completed + 1 = c.total) :
    Event.finished (c.completed + 1) (c.orig_bytes + o - (c.webp_bytes + w)) ∈
      (JobController.task_finished c o w el).2 := by
  simp [JobController.task_finished, h]

/-! ### Lemmas about `start` -/

/-- The dispatch loop submits a prefix of the remaining files: everything up
to the first iteration that observes `cancelled` as true. -/
theorem start_go_spec (cAt : ℕ → Bool) (fs : List String) (k : ℕ) :
    ∃ m, JobController.start_go cAt fs k = fs.take m ∧ m ≤ fs.length ∧
      (∀ i, i < m → cAt (k + i) = false) ∧
      (m < fs.length → cAt (k + m) = true) := by
  induction fs generalizing k with
  | nil => exact ⟨0, by simp [JobController.start_go]⟩
  | cons f fs ih =>
    by_cases h : cAt k
    · refine ⟨0, by simp [JobController.start_go, h], by simp, by omega, by simpa using h⟩
    · obtain ⟨m, hm, hle, hfalse, htrue⟩ := ih (k + 1)
      refine ⟨m + 1, ?_, by simpa using hle, ?_, ?_⟩
      · simp [JobController.start_go, h, hm]
      · intro i hi
        cases i with
        | zero => simpa using h
        | succ j =>
          have harith : k + (j + 1) = (k + 1) + j := by omega
          rw [harith]
          exact hfalse j (by omega)
      · intro hlt
        have harith : k + (m + 1) = (k + 1) + m := by omega
        rw [harith]
        exact htrue (by simpa using hlt)

theorem start_go_not_cancelled (cAt : ℕ → Bool) (h : ∀ i, cAt i = false) :
    ∀ (fs : List String) (k : ℕ), JobController.start_go cAt fs k = fs := by
  intro fs
  induction fs with
  | nil => intro k; rfl
  | cons f fs ih => intro k; simp [JobController.start_go, h k, ih (k + 1)]

/-! ### Lemmas about `resolve_name` -/

/-- The naming loop, started at candidate `j0`, returns the first free
candidate `j ≥ j0` provided all candidates in between exist and there is
enough fuel. -/
theorem resolve_name_go_spec (ex : String → Bool) (dir base : String) :
    ∀ (fuel j0 j : ℕ), j0 ≤ j →
      (∀ k, j0 ≤ k → k < j → ex (candidate dir base k) = true) →
      ex (candidate dir base j) = false → j - j0 < fuel →
      resolve_name_go ex dir base (candidate dir base j0) (j0 + 1) fuel =
        candidate dir base j := by
  intro fuel
  induction fuel with
  | zero => intro j0 j _ _ _ hf; omega
  | succ fuel ih =>
    intro j0 j hle htaken hfree hf
    rcases eq_or_lt_of_le hle with rfl | hlt
    · simp [resolve_name_go, hfree]
    · have ht : ex (candidate dir base j0) = true := htaken j0 le_rfl hlt
      simp only [resolve_name_go, ht, if_true]
      exact ih (j0 + 1) j hlt (fun k hk1 hk2 => htaken k (by omega) hk2) hfree (by omega)

/-! ### Lemmas about `safe_remove` -/

/-- When every deletion attempt raises `PermissionError`, the guarded loop
runs all its iterations (attempt then sleep, each time) and the final
unguarded attempt's exception escapes. -/
theorem safe_remove_go_all_perm (osr : ℕ → Option OsError)
    (h : ∀ i, osr i = some OsError.permissionError) :
    ∀ (n k : ℕ),
      safe_remove_go osr k n =
        ((List.replicate n [RemoveEvent.attempt, RemoveEvent.sleep]).flatten ++
            [RemoveEvent.attempt],
          some OsError.permissionError) := by
  intro n
  induction n with
  | zero => intro k; simp [safe_remove_go, h k]
  | succ n ih => intro k; simp [safe_remove_go, h k, ih (k + 1), List.replicate_succ]

/-- If the first `j` attempts raise `PermissionError` and attempt `j` (still
inside the guarded budget) succeeds, the loop returns right after that
attempt: `j` sleeps, `j + 1` attempts, no exception. -/
theorem safe_remove_go_success (osr : ℕ → Option OsError) :
    ∀ (n k j : ℕ), j < n →
      (∀ i, i < j → osr (k + i) = some OsError.permissionError) →
      osr (k + j) = none →
      safe_remove_go osr k n =
        ((List.replicate j [RemoveEvent.attempt, RemoveEvent.sleep]).flatten ++
            [RemoveEvent.attempt],
          none) := by
  intro n
  induction n with
  | zero => intro k j hj; omega
  | succ n ih =>
    intro k j hj hperm hok
    cases j with
    | zero =>
      have h0 : osr k = none := by simpa using hok
      simp [safe_remove_go, h0]
    | succ j =>
      have h0 : osr k = some OsError.permissionError := by simpa using hperm 0 (by omega)
      have hperm2 : ∀ i, i < j → osr ((k + 1) + i) = some OsError.permissionError := by
        intro i hi
        have harith : (k + 1) + i = k + (i + 1) := by omega
        rw [harith]
        exact hperm (i + 1) (by omega)
      have hok2 : osr ((k + 1) + j) = none := by
        have harith : (k + 1) + j = k + (j + 1) := by omega
        rw [harith]
        exact hok
      simp [safe_remove_go, h0, ih (k + 1) j (by omega) hperm2 hok2, List.replicate_succ]

/-- If the first `j` attempts raise `PermissionError` and attempt `j` (still
inside the guarded budget) raises anything other than `PermissionError`, that
exception escapes at once: no sleep after it, no further attempts. -/
theorem safe_remove_go_other (osr : ℕ → Option OsError) (m : String) :
    ∀ (n k j : ℕ), j < n →
      (∀ i, i < j → osr (k + i) = some OsError.permissionError) →
      osr (k + j) = some (OsError.otherError m) →
      safe_remove_go osr k n =
        ((List.replicate j [RemoveEvent.attempt, RemoveEvent.sleep]).flatten ++
            [RemoveEvent.attempt],
          some (OsError.otherError m)) := by
  intro n
  induction n with
  | zero => intro k j hj; omega
  | succ n ih =>
    intro k j hj hperm herr
    cases j with
    | zero =>
      have h0 : osr k = some (OsError.otherError m) := by simpa using herr
      simp [safe_remove_go, h0]
    | succ j =>
      have h0 : osr k = some OsError.permissionError := by simpa using hperm 0 (by omega)
      have hperm2 : ∀ i, i < j → osr ((k + 1) + i) = some OsError.permissionError := by
        intro i hi
        have harith : (k + 1) + i = k + (i + 1) := by omega
        rw [harith]
        exact hperm (i + 1) (by omega)
      have herr2 : osr ((k + 1) + j) = some (OsError.otherError m) := by
        have harith : (k + 1) + j = k + (j + 1) := by omega
        rw [harith]
        exact herr
      simp [safe_remove_go, h0, ih (k + 1) j (by omega) hperm2 herr2, List.replicate_succ]

/-! ### Claims -/

/-- C7: for every base name, `resolve_name` tries `base.webp` first and then
`base_1.webp`, `base_2.webp`, … in increasing order, returning the first path
that does not exist; with an existing `photo.webp` and no `photo_1.webp` it
returns a path ending in `photo_1.webp`, and with both existing it returns
`photo_2.webp`. -/
theorem claim_c7 (ex : String → Bool) (dir base : String) (j fuel : ℕ)
    (hfree : ex (candidate dir base j) = false)
    (htaken : ∀ k ∈ List.range j, ex (candidate dir base k) = true)
    (hfuel : j < fuel) :
    JobController.resolve_name ex dir base fuel = candidate dir base j ∧
    (∃ pre, JobController.resolve_name (fun s => s == "D/photo.webp") "D" "photo" 10 =
        pre ++ "photo_1.webp") ∧
    JobController.resolve_name (fun s => s == "D/photo.webp") "D" "photo" 10 =
      "D/photo_1.webp" ∧
    JobController.resolve_name
        (fun s => (s == "D/photo.webp") || (s == "D/photo_1.webp")) "D" "photo" 10 =
      "D/photo_2.webp" := by
  refine ⟨?_, ⟨"D/", by decide⟩, by decide, by decide⟩
  have h := resolve_name_go_spec ex dir base fuel 0 j (by omega)
    (fun k _ hk => htaken k (List.mem_range.mpr hk)) hfree (by omega)
  simpa [JobController.resolve_name] using h

/-- Witness for C7 at `j = 1`, an existing `photo.webp` and nothing else. -/
theorem claim_c7_witness :
    ((fun s => s == "D/photo.webp") (candidate "D" "photo" 1) = false) ∧
    (∀ k ∈ List.range 1, (fun s => s == "D/photo.webp") (candidate "D" "photo" k) = true) ∧
    (1 < 10) ∧
    JobController.resolve_name (fun s => s == "D/photo.webp") "D" "photo" 10 =
      candidate "D" "photo" 1 :=
  ⟨by decide, by decide, by decide,
    (claim_c7 (fun s => s == "D/photo.webp") "D" "photo" 1 10 (by decide) (by decide)
      (by decide)).1⟩

/-- C8: with a transient (`PermissionError`) failure on every attempt,
`safe_remove` makes exactly `retries` guarded attempts, each followed by a
sleep, then one final unguarded attempt whose exception escapes; and if a
guarded attempt succeeds, it returns immediately with no further attempts. -/
theorem claim_c8 (osr : ℕ → Option OsError) (retries : ℕ)
    (h : ∀ k, osr k = some OsError.permissionError) :
    safe_remove osr retries =
      ((List.replicate retries [RemoveEvent.attempt, RemoveEvent.sleep]).flatten ++
          [RemoveEvent.attempt],
        some OsError.permissionError) ∧
    (∀ (osr2 : ℕ → Option OsError) (j : ℕ), j < retries →
      (∀ i ∈ List.range j, osr2 i = some OsError.permissionError) → osr2 j = none →
      safe_remove osr2 retries =
        ((List.replicate j [RemoveEvent.attempt, RemoveEvent.sleep]).flatten ++
            [RemoveEvent.attempt],
          none)) := by
  constructor
  · exact safe_remove_go_all_perm osr h retries 0
  · intro osr2 j hj hperm hok
    exact safe_remove_go_success osr2 retries 0 j hj
      (fun i hi => by rw [Nat.zero_add]; exact hperm i (List.mem_range.mpr hi))
      (by rw [Nat.zero_add]; exact hok)

/-- Witness for C8 at the Python default `retries = 3` and an oracle that
always raises `PermissionError`. -/
theorem claim_c8_witness :
    safe_remove (fun _ => some OsError.permissionError) 3 =
      ((List.replicate 3 [RemoveEvent.attempt, RemoveEvent.sleep]).flatten ++
          [RemoveEvent.attempt],
        some OsError.permissionError) ∧
    (∀ (osr2 : ℕ → Option OsError) (j : ℕ), j < 3 →
      (∀ i ∈ List.range j, osr2 i = some OsError.permissionError) → osr2 j = none →
      safe_remove osr2 3 =
        ((List.replicate j [RemoveEvent.attempt, RemoveEvent.sleep]).flatten ++
            [RemoveEvent.attempt],
          none)) :=
  claim_c8 (fun _ => some OsError.permissionError) 3 (fun _ => rfl)

/-- C10: the retry loop only retries `PermissionError`; any other exception
raised by a guarded attempt escapes from that attempt at once, with no
further attempts and no sleep after it. -/
theorem claim_c10 (osr : ℕ → Option OsError) (retries j : ℕ) (m : String)
    (hj : j < retries)
    (hperm : ∀ i ∈ List.range j, osr i = some OsError.permissionError)
    (herr : osr j = some (OsError.otherError m)) :
    safe_remove osr retries =
      ((List.replicate j [RemoveEvent.attempt, RemoveEvent.sleep]).flatten ++
          [RemoveEvent.attempt],
        some (OsError.otherError m)) :=
  safe_remove_go_other osr m retries 0 j hj
    (fun i hi => by rw [Nat.zero_add]; exact hperm i (List.mem_range.mpr hi))
    (by rw [Nat.zero_add]; exact herr)

/-- Witness for C10: a missing-file error on the very first attempt escapes
with one single attempt and no sleep. -/
theorem claim_c10_witness :
    (0 < 3) ∧
    safe_remove (fun _ => some (OsError.otherError "No such file or directory")) 3 =
      ([RemoveEvent.attempt], some (OsError.otherError "No such file or directory")) :=
  ⟨by decide,
    claim_c10 (fun _ => some (OsError.otherError "No such file or directory")) 3 0
      "No such file or directory" (by decide) (by decide) rfl⟩

/-- C4 counterexample: the code checks `self.cancelled` inside the dispatch
loop, once per item, not once before dispatch begins.  With a `cancelled`
flag that becomes true after the first iteration's check, the source loop
submits only the first file, while the spec-described "checked once before
dispatch" behavior (`start_once`) would submit both.  (With a flag that
cannot change during the loop the two are indistinguishable; the check
placement itself is what the source contradicts.) -/
theorem claim_c4_counterexample :
    JobController.start (JobController.init ["a.png", "b.png"] "out" 87 false false 2)
        (fun k => decide (1 ≤ k)) = ["a.png"] ∧
    JobController.start_once (JobController.init ["a.png", "b.png"] "out" 87 false false 2)
        (fun k => decide (1 ≤ k)) = ["a.png", "b.png"] ∧
    JobController.start (JobController.init ["a.png", "b.png"] "out" 87 false false 2)
        (fun k => decide (1 ≤ k)) ≠
      JobController.start_once (JobController.init ["a.png", "b.png"] "out" 87 false false 2)
        (fun k => decide (1 ≤ k)) := by
  refine ⟨by decide, by decide, by decide⟩

/-- C4 (amended): `start()` submits one ConversionTask per input path, in
input order, checking the cancelled flag before each submission and stopping
at the first item whose check observes true; tasks already submitted still
perform their own per-task checkpoint check. -/
theorem claim_c4 (c : JobController) (cAt : ℕ → Bool) :
    (∃ m, JobController.start c cAt = c.files.take m ∧ m ≤ c.files.length ∧
      (∀ i, i < m → cAt i = false) ∧
      (m < c.files.length → cAt m = true)) ∧
    (∀ (cancelled : Bool) (fname : String) (dl : Bool) (env : TaskEnv),
      RunStep.cancelCheck ∈ (ConvertTask.run cancelled fname dl env).1) := by
  constructor
  · simpa [JobController.start] using start_go_spec cAt c.files 0
  · intro cancelled fname dl env
    rcases h : ConvertTask.body dl env with e | p <;>
      cases cancelled <;> simp [ConvertTask.run, h]

/-- C9 counterexample: the code has no `ConfigError` and performs no
validation.  With the invalid configuration `max_workers = 0` (and a
nonempty input set), construction succeeds and `start()` still dispatches a
task — the spec-modelled checked constructor (`init_checked`) instead
refuses this configuration, so the claimed surfacing of a `ConfigError`
before any dispatch is false of the source. -/
theorem claim_c9_counterexample :
    JobController.start (JobController.init ["a.png"] "out" 87 false false 0)
        (fun _ => false) = ["a.png"] ∧
    JobController.init_checked ["a.png"] "out" 87 false false 0 =
      Except.error ConfigError.invalidConfig := by
  refine ⟨by decide, by rfl⟩

/-- C9 (amended): the code never validates the job configuration: `__init__`
always succeeds (`total` is just the file count), `start()` on an
uncancelled job dispatches one task per input path even with zero workers,
and with an empty input set it simply dispatches nothing. -/
theorem claim_c9 (files : List String) (out : String) (q : ℕ) (km dl : Bool) (mw : ℕ)
    (cAt : ℕ → Bool) (h : ∀ i, cAt i = false) :
    (JobController.init files out q km dl mw).total = files.length ∧
    (JobController.init files out q km dl mw).completed = 0 ∧
    (JobController.init files out q km dl mw).cancelled = false ∧
    JobController.start (JobController.init files out q km dl mw) cAt = files ∧
    JobController.start (JobController.init [] out q km dl mw) cAt = [] := by
  refine ⟨rfl, rfl, rfl, ?_, rfl⟩
  simpa [JobController.start, JobController.init] using start_go_not_cancelled cAt h files 0

/-- Witness for C9 at the invalid configuration `max_workers = 0` with one
input file: the job is constructed and dispatches anyway. -/
theorem claim_c9_witness :
    (JobController.init ["a.png"] "out" 87 false false 0).total = ["a.png"].length ∧
    (JobController.init ["a.png"] "out" 87 false false 0).completed = 0 ∧
    (JobController.init ["a.png"] "out" 87 false false 0).cancelled = false ∧
    JobController.start (JobController.init ["a.png"] "out" 87 false false 0)
        (fun _ => false) = ["a.png"] ∧
    JobController.start (JobController.init [] "out" 87 false false 0)
        (fun _ => false) = [] :=
  claim_c9 ["a.png"] "out" 87 false false 0 (fun _ => false) (fun _ => rfl)

/-- C5: every task's cancellation check happens after its pause wait returns
(the wait step strictly precedes the check step in the execution trace); if
`cancelled` is true at that checkpoint the task aborts: no TaskResult, no
conversion step in the trace, and the controller's state and event stream
are untouched; if it is false the task proceeds into the conversion body. -/
theorem claim_c5 (c : JobController) (fname : String) (env : TaskEnv) (el : ℚ) :
    ((ConvertTask.run c.cancelled fname c.delete_originals env).1.get? 0 =
        some RunStep.pauseWait ∧
     (ConvertTask.run c.cancelled fname c.delete_originals env).1.get? 1 =
        some RunStep.cancelCheck) ∧
    (c.cancelled = true →
      (ConvertTask.run c.cancelled fname c.delete_originals env).2 = TaskOutcome.aborted ∧
      RunStep.convertWork ∉ (ConvertTask.run c.cancelled fname c.delete_originals env).1 ∧
      ConvertTask.runJob c fname env el = (c, [])) ∧
    (c.cancelled = false →
      RunStep.convertWork ∈ (ConvertTask.run c.cancelled fname c.delete_originals env).1) := by
  rcases hb : ConvertTask.body c.delete_originals env with e | p <;>
    cases hc : c.cancelled <;>
      simp [ConvertTask.run, ConvertTask.runJob, hb, hc]

/-- C6: any exception from the conversion stage onward — including a
non-positive output size, turned into a failure rather than a silent
success — is caught at the task boundary, formatted `"<filename> → <message>"`,
reported as the error event only, and leaves the controller state (its
counters in particular) unchanged. -/
theorem claim_c6 (c : JobController) (fname msg : String) (env : TaskEnv) (el : ℚ)
    (hcan : c.cancelled = false)
    (hb : ConvertTask.body c.delete_originals env = Except.error msg) :
    ConvertTask.runJob c fname env el = (c, [Event.error (fname ++ " → " ++ msg)]) ∧
    (∀ (dl : Bool) (o z : ℤ) (r : Except String Unit), z ≤ 0 →
      ConvertTask.body dl
          ⟨Except.ok o, Except.ok (), Except.ok (), Except.ok z, r⟩ =
        Except.error "Empty WEBP") := by
  constructor
  · simp [ConvertTask.runJob, ConvertTask.run, hcan, hb, JobController.task_error]
  · intro dl o z r hz
    simp [ConvertTask.body, hz, bind, Except.bind, throw, throwThe, MonadExceptOf.throw]

/-- Witness for C6: a task whose `os.path.getsize` on the input raises. -/
theorem claim_c6_witness :
    ConvertTask.runJob (JobController.init ["a.png"] "out" 87 false false 2) "a.png"
        ⟨Except.error "No such file or directory", Except.ok (), Except.ok (),
          Except.ok 1, Except.ok ()⟩ 1 =
      (JobController.init ["a.png"] "out" 87 false false 2,
        [Event.error ("a.png" ++ " → " ++ "No such file or directory")]) ∧
    (∀ (dl : Bool) (o z : ℤ) (r : Except String Unit), z ≤ 0 →
      ConvertTask.body dl
          ⟨Except.ok o, Except.ok (), Except.ok (), Except.ok z, r⟩ =
        Except.error "Empty WEBP") :=
  claim_c6 (JobController.init ["a.png"] "out" 87 false false 2) "a.png"
    "No such file or directory"
    ⟨Except.error "No such file or directory", Except.ok (), Except.ok (),
      Except.ok 1, Except.ok ()⟩ 1 rfl rfl

/-- C3: on every successful task completion the controller emits, first, a
progress value equal to `floor(completed / total * 100)` and, second, an ETA
equal to `(total − completed) / (completed / elapsed)` — with the rate taken
as 0 when `elapsed` is 0 and the ETA taken as 0 when the rate is 0 —
formatted as `HH:MM:SS`; with `completed = 0` the formatted ETA is
`"00:00:00"` (no division by zero), and with `total = 10`, `completed = 5`,
`elapsed = 10` s it is `"00:00:10"`. -/
theorem claim_c3 (c : JobController) (o w : ℤ) (el : ℚ) :
    (JobController.task_finished c o w el).2.get? 0 =
      some (Event.progress ⌊(((c.completed + 1 : ℕ) : ℚ) / ((c.total : ℕ) : ℚ)) * 100⌋₊) ∧
    (JobController.task_finished c o w el).2.get? 1 =
      some (Event.eta (format_hms (ratFloor
        (if el = 0 ∨ ((c.completed + 1 : ℕ) : ℚ) / el = 0 then 0
         else (((c.total : ℕ) : ℚ) - ((c.completed + 1 : ℕ) : ℚ)) /
           (((c.completed + 1 : ℕ) : ℚ) / el))))) ∧
    (∀ (t : ℕ) (el2 : ℚ), format_hms (ratFloor (etaSeconds t 0 el2)) = "00:00:00") ∧
    format_hms (ratFloor (etaSeconds 10 5 10)) = "00:00:10" := by
  have heta : etaSeconds c.total (c.completed + 1) el =
      (if el = 0 ∨ ((c.completed + 1 : ℕ) : ℚ) / el = 0 then 0
       else (((c.total : ℕ) : ℚ) - ((c.completed + 1 : ℕ) : ℚ)) /
         (((c.completed + 1 : ℕ) : ℚ) / el)) := by
    unfold etaSeconds
    by_cases hel : el = 0
    · simp [hel]
    · by_cases hr : ((c.completed + 1 : ℕ) : ℚ) / el = 0
      · simp [hel, hr]
      · simp [hel, hr]
  refine ⟨?_, ?_, ?_, ?_⟩
  · simp [JobController.task_finished, ratFloor_eq_natFloor]
  · simp [JobController.task_finished, heta]
  · intro t el2
    have h0 : etaSeconds t 0 el2 = 0 := by
      unfold etaSeconds
      by_cases hel : el2 = 0 <;> simp [hel]
    have hf : ratFloor 0 = 0 := by rw [ratFloor_eq_natFloor]; simp
    rw [h0, hf]
    decide
  · have h5 : etaSeconds 10 5 10 = 10 := by norm_num [etaSeconds]
    have hf : ratFloor 10 = 10 := by rw [ratFloor_eq_natFloor]; simp
    rw [h5, hf]
    decide

/-- C1: along any interleaving of the task completions of a job (each
serialized `task_finished` update applied once per completed task, at most
one completion per dispatched task), `completed` never exceeds `total` and
is monotonically non-decreasing, the cumulative byte counters only increase,
and they change exactly at completion steps — each step adding exactly that
task's sizes while incrementing `completed` by exactly one; `task_error`
never touches the state. -/
theorem claim_c1 (files : List String) (out : String) (q : ℕ) (km dl : Bool) (mw : ℕ)
    (sch : List Completion) (c0 : JobController)
    (hc0 : c0 = JobController.init files out q km dl mw)
    (hlen : sch.length ≤ files.length)
    (hnn : ∀ e ∈ sch, 0 ≤ e.1 ∧ 0 ≤ e.2.1) :
    (∀ k, (runPrefix c0 sch k).completed ≤ (runPrefix c0 sch k).total) ∧
    (∀ k l, k ≤ l → (runPrefix c0 sch k).completed ≤ (runPrefix c0 sch l).completed) ∧
    (∀ k l, k ≤ l → (runPrefix c0 sch k).orig_bytes ≤ (runPrefix c0 sch l).orig_bytes ∧
      (runPrefix c0 sch k).webp_bytes ≤ (runPrefix c0 sch l).webp_bytes) ∧
    (∀ k e, sch.get? k = some e →
      (runPrefix c0 sch (k + 1)).completed = (runPrefix c0 sch k).completed + 1 ∧
      (runPrefix c0 sch (k + 1)).orig_bytes = (runPrefix c0 sch k).orig_bytes + e.1 ∧
      (runPrefix c0 sch (k + 1)).webp_bytes = (runPrefix c0 sch k).webp_bytes + e.2.1) ∧
    (∀ (d : JobController) (msg : String), (JobController.task_error d msg).1 = d) := by
  subst hc0
  have hsplit : ∀ k l, k ≤ l →
      runPrefix (JobController.init files out q km dl mw) sch l =
        runCompletions (runPrefix (JobController.init files out q km dl mw) sch k)
          ((sch.drop k).take (l - k)) := by
    intro k l hkl
    rw [runPrefix, runPrefix, ← runCompletions_append, ← List.take_add]
    have harith : k + (l - k) = l := by omega
    rw [harith]
  refine ⟨?_, ?_, ?_, ?_, fun d msg => rfl⟩
  · intro k
    simp only [runPrefix, runCompletions_completed, runCompletions_total, JobController.init]
    rw [List.length_take]
    omega
  · intro k l hkl
    simp only [runPrefix, runCompletions_completed, JobController.init]
    rw [List.length_take, List.length_take]
    omega
  · intro k l hkl
    rw [hsplit k l hkl]
    constructor
    · rw [runCompletions_orig_bytes]
      refine le_add_of_nonneg_right (List.sum_nonneg ?_)
      intro x hx
      obtain ⟨e, he, rfl⟩ := List.mem_map.mp hx
      exact (hnn e (List.mem_of_mem_drop (List.mem_of_mem_take he))).1
    · rw [runCompletions_webp_bytes]
      refine le_add_of_nonneg_right (List.sum_nonneg ?_)
      intro x hx
      obtain ⟨e, he, rfl⟩ := List.mem_map.mp hx
      exact (hnn e (List.mem_of_mem_drop (List.mem_of_mem_take he))).2
  · intro k e he
    have htake : sch.take (k + 1) = sch.take k ++ [e] := by
      rw [List.take_succ, ← List.get?_eq_getElem?, he]
      rfl
    rw [runPrefix, runPrefix, htake, runCompletions_append]
    simp

/-- Witness for C1: one input file, one completion of sizes (100, 60). -/
theorem claim_c1_witness :
    ([((100 : ℤ), (60 : ℤ), (1 : ℚ))].length ≤ ["a.png"].length) ∧
    (∀ e ∈ [((100 : ℤ), (60 : ℤ), (1 : ℚ))], 0 ≤ e.1 ∧ 0 ≤ e.2.1) ∧
    ((∀ k, (runPrefix (JobController.init ["a.png"] "out" 87 false false 1)
          [((100 : ℤ), (60 : ℤ), (1 : ℚ))] k).completed ≤
        (runPrefix (JobController.init ["a.png"] "out" 87 false false 1)
          [((100 : ℤ), (60 : ℤ), (1 : ℚ))] k).total) ∧
     (∀ k l, k ≤ l →
       (runPrefix (JobController.init ["a.png"] "out" 87 false false 1)
           [((100 : ℤ), (60 : ℤ), (1 : ℚ))] k).completed ≤
         (runPrefix (JobController.init ["a.png"] "out" 87 false false 1)
           [((100 : ℤ), (60 : ℤ), (1 : ℚ))] l).completed) ∧
     (∀ k l, k ≤ l →
       (runPrefix (JobController.init ["a.png"] "out" 87 false false 1)
           [((100 : ℤ), (60 : ℤ), (1 : ℚ))] k).orig_bytes ≤
         (runPrefix (JobController.init ["a.png"] "out" 87 false false 1)
           [((100 : ℤ), (60 : ℤ), (1 : ℚ))] l).orig_bytes ∧
       (runPrefix (JobController.init ["a.png"] "out" 87 false false 1)
           [((100 : ℤ), (60 : ℤ), (1 : ℚ))] k).webp_bytes ≤
         (runPrefix (JobController.init ["a.png"] "out" 87 false false 1)
           [((100 : ℤ), (60 : ℤ), (1 : ℚ))] l).webp_bytes) ∧
     (∀ k e, [((100 : ℤ), (60 : ℤ), (1 : ℚ))].get? k = some e →
       (runPrefix (JobController.init ["a.png"] "out" 87 false false 1)
           [((100 : ℤ), (60 : ℤ), (1 : ℚ))] (k + 1)).completed =
         (runPrefix (JobController.init ["a.png"] "out" 87 false false 1)
           [((100 : ℤ), (60 : ℤ), (1 : ℚ))] k).completed + 1 ∧
       (runPrefix (JobController.init ["a.png"] "out" 87 false false 1)
           [((100 : ℤ), (60 : ℤ), (1 : ℚ))] (k + 1)).orig_bytes =
         (runPrefix (JobController.init ["a.png"] "out" 87 false false 1)
           [((100 : ℤ), (60 : ℤ), (1 : ℚ))] k).orig_bytes + e.1 ∧
       (runPrefix (JobController.init ["a.png"] "out" 87 false false 1)
           [((100 : ℤ), (60 : ℤ), (1 : ℚ))] (k + 1)).webp_bytes =
         (runPrefix (JobController.init ["a.png"] "out" 87 false false 1)
           [((100 : ℤ), (60 : ℤ), (1 : ℚ))] k).webp_bytes + e.2.1) ∧
     (∀ (d : JobController) (msg : String), (JobController.task_error d msg).1 = d)) :=
  ⟨by decide, by decide,
    claim_c1 ["a.png"] "out" 87 false false 1 [((100 : ℤ), (60 : ℤ), (1 : ℚ))]
      (JobController.init ["a.png"] "out" 87 false false 1) rfl (by decide) (by decide)⟩

/-- C2: over a full completion schedule, the job-finished event occurs in
the events of step `k` exactly when `k` is the last completion (the one that
makes `completed` reach `total`), and there it carries
`convertedCount = completed = total` and
`savedBytes = cumulativeOriginalBytes − cumulativeOutputBytes`; in the
4-input scenario with sizes (100,50), (200,80), (150,60), (300,100), the
event fires exactly once and carries `convertedCount = 4`,
`savedBytes = 460`. -/
theorem claim_c2 (files : List String) (out : String) (q : ℕ) (km dl : Bool) (mw : ℕ)
    (sch : List Completion) (c0 : JobController)
    (hc0 : c0 = JobController.init files out q km dl mw)
    (hlen : sch.length = files.length) :
    (∀ k evs, (jobEvents c0 sch).get? k = some evs →
      (((∃ n b, Event.finished n b ∈ evs) ↔ k + 1 = sch.length) ∧
       (k + 1 = sch.length →
         Event.finished sch.length
             ((sch.map fun e => e.1).sum - (sch.map fun e => e.2.1).sum) ∈ evs))) ∧
    ((jobEvents (JobController.init ["a.png", "b.png", "c.png", "d.png"] "out" 87 false false 2)
        [((100 : ℤ), (50 : ℤ), (1 : ℚ)), ((200 : ℤ), (80 : ℤ), (2 : ℚ)),
          ((150 : ℤ), (60 : ℤ), (3 : ℚ)), ((300 : ℤ), (100 : ℤ), (4 : ℚ))]).flatten.countP
        Event.isFinished = 1 ∧
     Event.finished 4 460 ∈
       (jobEvents (JobController.init ["a.png", "b.png", "c.png", "d.png"] "out" 87 false false 2)
         [((100 : ℤ), (50 : ℤ), (1 : ℚ)), ((200 : ℤ), (80 : ℤ), (2 : ℚ)),
           ((150 : ℤ), (60 : ℤ), (3 : ℚ)), ((300 : ℤ), (100 : ℤ), (4 : ℚ))]).flatten) := by
  subst hc0
  constructor
  · intro k evs hev
    rw [jobEvents_get? sch _ k] at hev
    rcases hmap : sch.get? k with _ | e
    · rw [hmap] at hev
      simp at hev
    · rw [hmap] at hev
      have hevs : evs =
          (JobController.task_finished
            (runPrefix (JobController.init files out q km dl mw) sch k)
            e.1 e.2.1 e.2.2).2 := by
        simpa using hev.symm
      subst hevs
      have hk : k < sch.length := by
        by_contra hgt
        rw [List.get?_eq_none.mpr (by omega)] at hmap
        simp at hmap
      have hcomp :
          (runPrefix (JobController.init files out q km dl mw) sch k).completed = k := by
        simp only [runPrefix, runCompletions_completed, JobController.init]
        rw [List.length_take]
        omega
      have htot :
          (runPrefix (JobController.init files out q km dl mw) sch k).total =
            sch.length := by
        simp only [runPrefix, runCompletions_total, JobController.init]
        omega
      constructor
      · rw [finished_mem_task_finished, hcomp, htot]
      · intro hlast
        have hpay := finished_payload_task_finished
          (runPrefix (JobController.init files out q km dl mw) sch k)
          e.1 e.2.1 e.2.2 (by rw [hcomp, htot]; exact hlast)
        have htake1 : sch.take (k + 1) = sch.take k ++ [e] := by
          rw [List.take_succ, ← List.get?_eq_getElem?, hmap]
          rfl
        have htakeall : sch.take (k + 1) = sch := by
          rw [hlast]
          exact List.take_length sch
        have horig :
            (runPrefix (JobController.init files out q km dl mw) sch k).orig_bytes =
              ((sch.take k).map fun x => x.1).sum := by
          simp [runPrefix, JobController.init]
        have hwebp :
            (runPrefix (JobController.init files out q km dl mw) sch k).webp_bytes =
              ((sch.take k).map fun x => x.2.1).sum := by
          simp [runPrefix, JobController.init]
        have hsum1 : ((sch.take k).map fun x => x.1).sum + e.1 =
            (sch.map fun x => x.1).sum := by
          conv_rhs => rw [← htakeall, htake1]
          simp
        have hsum2 : ((sch.take k).map fun x => x.2.1).sum + e.2.1 =
            (sch.map fun x => x.2.1).sum := by
          conv_rhs => rw [← htakeall, htake1]
          simp
        have hgoal : Event.finished sch.length
              ((sch.map fun x => x.1).sum - (sch.map fun x => x.2.1).sum) =
            Event.finished
              ((runPrefix (JobController.init files out q km dl mw) sch k).completed + 1)
              ((runPrefix (JobController.init files out q km dl mw) sch k).orig_bytes +
                  e.1 -
                ((runPrefix (JobController.init files out q km dl mw) sch k).webp_bytes +
                  e.2.1)) := by
          rw [hcomp, horig, hwebp, hsum1, hsum2, hlast]
        rw [hgoal]
        exact hpay
  · constructor
    · decide
    · decide

/-- Witness for C2: a one-file job with its single completion. -/
theorem claim_c2_witness :
    (([((100 : ℤ), (60 : ℤ), (1 : ℚ))] : List Completion).length = ["a.png"].length) ∧
    ((∀ k evs,
      (jobEvents (JobController.init ["a.png"] "out" 87 false false 1)
          [((100 : ℤ), (60 : ℤ), (1 : ℚ))]).get? k = some evs →
        (((∃ n b, Event.finished n b ∈ evs) ↔
            k + 1 = ([((100 : ℤ), (60 : ℤ), (1 : ℚ))] : List Completion).length) ∧
         (k + 1 = ([((100 : ℤ), (60 : ℤ), (1 : ℚ))] : List Completion).length →
           Event.finished ([((100 : ℤ), (60 : ℤ), (1 : ℚ))] : List Completion).length
               ((([((100 : ℤ), (60 : ℤ), (1 : ℚ))] : List Completion).map fun e => e.1).sum -
                 (([((100 : ℤ), (60 : ℤ), (1 : ℚ))] : List Completion).map
                   fun e => e.2.1).sum) ∈ evs))) ∧
     ((jobEvents (JobController.init ["a.png", "b.png", "c.png", "d.png"] "out" 87 false false 2)
         [((100 : ℤ), (50 : ℤ), (1 : ℚ)), ((200 : ℤ), (80 : ℤ), (2 : ℚ)),
           ((150 : ℤ), (60 : ℤ), (3 : ℚ)), ((300 : ℤ), (100 : ℤ), (4 : ℚ))]).flatten.countP
         Event.isFinished = 1 ∧
      Event.finished 4 460 ∈
        (jobEvents (JobController.init ["a.png", "b.png", "c.png", "d.png"] "out" 87 false false 2)
          [((100 : ℤ), (50 : ℤ), (1 : ℚ)), ((200 : ℤ), (80 : ℤ), (2 : ℚ)),
            ((150 : ℤ), (60 : ℤ), (3 : ℚ)), ((300 : ℤ), (100 : ℤ), (4 : ℚ))]).flatten)) :=
  ⟨by decide,
    claim_c2 ["a.png"] "out" 87 false false 1 [((100 : ℤ), (60 : ℤ), (1 : ℚ))]
      (JobController.init ["a.png"] "out" 87 false false 1) rfl (by decide)⟩

end WebpApp
